import Mathlib

/-
Verification of the dag1 consensus core (package poset) against its
natural-language specification.

The Go source is shallowly embedded: Go maps become association lists
(iteration follows list order where Go map order is unspecified), pointers
become explicit lookups by hash in a `PosetState`, int64 becomes `Int`,
uint64 counts become `Nat`, and fallible calls return `Except String`.
Recursive store walks carry explicit fuel.

Types whose Go definitions live outside the provided sources (the peers
registry, event.go's FlagTable/MergeFlagTable, the store's key-not-found
behaviour, the ByLamportTimestamp comparator) are modelled from the spec;
each such definition says so in its doc comment.
-/

namespace Dag1

instance {ε α : Type} [DecidableEq ε] [DecidableEq α] : DecidableEq (Except ε α)
  | .error x, .error y =>
      if h : x = y then isTrue (by rw [h]) else isFalse (by simp [h])
  | .error _, .ok _ => isFalse (by simp)
  | .ok _, .error _ => isFalse (by simp)
  | .ok x, .ok y =>
      if h : x = y then isTrue (by rw [h]) else isFalse (by simp [h])

/-- Event hashes are abstracted to naturals; 0 is the zero (absent) hash. -/
abbrev EventHash := Nat

/-- Modelled from the spec: `FlagTable` (poset/flag_table.go is not under
src/) is "a mapping from event hash to the frame number at which that event
became a root"; embedded as an association list with distinct keys. -/
abbrev FlagTable := List (EventHash × Int)

/-- Lookup of a key in a flag table (Go map read). -/
def ftLookup (ft : FlagTable) (k : EventHash) : Option Int :=
  (ft.find? (fun kv => kv.1 = k)).map (·.2)

/-- Go map assignment `ft[k] = v`: replace the value when the key is
present, append otherwise. -/
def ftInsert : FlagTable → EventHash → Int → FlagTable
  | [], k, v => [(k, v)]
  | kv :: rest, k, v =>
    if kv.1 = k then (k, v) :: rest else kv :: ftInsert rest k v

/-- Go `len` of a flag table: number of entries. -/
def ftSize (ft : FlagTable) : Nat := ft.length

/-- Modelled from the spec: `Event.MergeFlagTable` (poset/event.go is not
under src/) performs the union of the receiver's flag table with the
argument; "value at each hash is the frame it first appeared as a root",
so an existing entry is kept on key collision. The Go frame argument does
not affect the union described by the spec and is omitted. -/
def mergeFlagTable (self other : FlagTable) : FlagTable :=
  other.foldl
    (fun acc kv => if (ftLookup acc kv.1).isSome then acc else acc ++ [kv])
    self

/-- Block signature as carried in the signature pool. Cryptographic
validity of the signature bytes is abstracted into the `valid` field, and
a `verify` call that itself fails is abstracted into `verifyErr`. -/
structure BlockSignature where
  index : Int
  validator : Nat
  valid : Bool
  verifyErr : Bool
  deriving Repr, DecidableEq

/-- RootEvent: descriptor of a dangling parent stored inside a Root
(spec section 3: pseudo-hash, creator-id, index, lamport, round). -/
structure RootEvent where
  hash : EventHash
  creatorID : Nat
  index : Int
  lamportTimestamp : Int
  round : Int
  deriving Repr, DecidableEq

/-- Root: the per-participant synthetic anchor (spec section 3) with a
self-parent descriptor and the "others" map keyed by event hash. -/
structure Root where
  nextRound : Int
  selfParent : RootEvent
  others : List (EventHash × RootEvent)
  deriving Repr, DecidableEq

/-- Event record: body fields plus the engine-assigned fields that
InsertEvent and the clotho/atropos machinery read and write. The detached
signature is kept as abstract bytes and its verification result as
`sigOk`; `loaded` abstracts Event.IsLoaded(); `transactionCount`
abstracts len(Transactions()). -/
structure Event where
  hash : EventHash
  creator : Nat
  creatorID : Nat
  index : Int
  selfParent : EventHash
  otherParent : EventHash
  frame : Int
  lamport : Int
  isRoot : Bool
  isClotho : Bool
  isAtropos : Bool
  atroposTimestamp : Int
  frameReceived : Int
  flagTable : FlagTable
  rootTable : FlagTable
  flagTableHash : Nat
  signature : List Nat
  sigOk : Bool
  loaded : Bool
  transactionCount : Nat
  blockSignatures : List BlockSignature
  topologicalIndex : Int
  deriving Repr, DecidableEq

/-- The Go zero value of Event, returned (with an error) by store lookups
that miss; InsertEvent reads the Frame and LamportTimestamp of such zero
events when a parent is unknown. -/
def zeroEvent : Event where
  hash := 0
  creator := 0
  creatorID := 0
  index := 0
  selfParent := 0
  otherParent := 0
  frame := 0
  lamport := 0
  isRoot := false
  isClotho := false
  isAtropos := false
  atroposTimestamp := 0
  frameReceived := 0
  flagTable := []
  rootTable := []
  flagTableHash := 0
  signature := []
  sigOk := false
  loaded := false
  transactionCount := 0
  blockSignatures := []
  topologicalIndex := 0

/-- The sentinel for an unassigned lamport timestamp. Modelled from the
spec: poset/event.go is not under src/; the sentinel is strictly below
every assigned value, and the undefined round index is -1 (part_010 line
2499), so LamportTimestampNIL = -1. -/
def LamportTimestampNIL : Int := -1

/-- Block: index, round received, and the attached signatures keyed by
validator (only the distinct validator keys matter for counting, so the
map is embedded as the list of validator keys). -/
structure Block where
  index : Int
  roundReceived : Int
  signatures : List Nat
  deriving Repr, DecidableEq

/-- Modelled from the spec: peers.Peers.GetSuperMajority (the peers
package is not under src/). The formula 2n/3 + 1 with truncating integer
division reproduces the spec's expected table {1,2,3,3,4,5,5,6,7,7} for
n = 1..10 (spec section 8). -/
def GetSuperMajority (n : Nat) : Nat := 2 * n / 3 + 1

/-- Modelled from the spec: peers.Peers.GetTrustCount (the peers package
is not under src/); trust-count = floor(n/3). -/
def GetTrustCount (n : Nat) : Nat := n / 3

/-- The supermajority formula written in spec section 4.3:
2*floor(n/3) + 1. -/
def superMajoritySpecFloor (n : Nat) : Nat := 2 * (n / 3) + 1

/-- The supermajority formula written in spec section 2:
ceil(2n/3) + 1. -/
def superMajoritySpecCeil (n : Nat) : Nat := (2 * n + 2) / 3 + 1

/-- Full mutable state of a Poset plus its Store, restricted to the
fields the verified operations touch. -/
structure PosetState where
  participants : List Nat
  events : List Event
  lastEvents : List (Nat × EventHash)
  roots : List (Nat × Root)
  clothoCreatorChecks : List ((Int × Nat) × EventHash)
  clothoChecks : List ((Int × EventHash) × EventHash)
  timeTables : List (EventHash × List (EventHash × Int))
  roundsCreated : List Int
  blocks : List Block
  undeterminedEvents : List EventHash
  pendingLoadedEvents : Int
  sigPool : List BlockSignature
  topologicalIndex : Int
  lastConsensusRound : Option Int
  firstConsensusRound : Option Int
  anchorBlock : Option Int
  consensusTransactions : Nat
  consensusEvents : List EventHash
  deriving Repr, DecidableEq

/-- Store.GetEventBlock: lookup an event by hash. -/
def getEvent (s : PosetState) (h : EventHash) : Option Event :=
  s.events.find? (fun e => e.hash = h)

/-- Parent fetch in InsertEvent: a failed GetEventBlock leaves the Go
zero Event in the local variable. -/
def getEventD (s : PosetState) (h : EventHash) : Event :=
  (getEvent s h).getD zeroEvent

/-- Store.SetEvent: store an event under its hash (replace or append) and
update the creator's participant-event index so that LastEventFrom
returns this event. -/
def setEventList : List Event → Event → List Event
  | [], e => [e]
  | x :: xs, e => if x.hash = e.hash then e :: xs else x :: setEventList xs e

/-- State-level Store.SetEvent. -/
def setEventStore (s : PosetState) (e : Event) : PosetState :=
  { s with
    events := setEventList s.events e
    lastEvents := (e.creator, e.hash) ::
      s.lastEvents.filter (fun p => p.1 ≠ e.creator) }

/-- Store.LastEventFrom: last known event hash of a creator (for a
creator with no events yet this is the root's self-parent pseudo-hash,
installed at store construction). -/
def lastEventFrom (s : PosetState) (creator : Nat) : Option EventHash :=
  (s.lastEvents.find? (fun p => p.1 = creator)).map (·.2)

/-- Store.GetRoot for a creator. -/
def getRoot (s : PosetState) (creator : Nat) : Option Root :=
  (s.roots.find? (fun p => p.1 = creator)).map (·.2)

/-- Store.GetClothoCreatorCheck: canonical root hash at (frame, creator
id). -/
def getClothoCreatorCheck (s : PosetState) (frame : Int) (cid : Nat) :
    Option EventHash :=
  (s.clothoCreatorChecks.find? (fun p => p.1 = (frame, cid))).map (·.2)

/-- Store.GetClothoCheck: root hash recorded at (frame, event hash). -/
def getClothoCheck (s : PosetState) (frame : Int) (h : EventHash) :
    Option EventHash :=
  (s.clothoChecks.find? (fun p => p.1 = (frame, h))).map (·.2)

/-- Store.AddClothoCheck(frame, creatorID, hash). Modelled from the spec:
the store (not under src/) keeps clotho-checks retrievable both by
(frame, creator-id) and by (frame, hash) (spec section 6). -/
def addClothoCheck (s : PosetState) (frame : Int) (cid : Nat)
    (h : EventHash) : PosetState :=
  { s with
    clothoCreatorChecks := ((frame, cid), h) :: s.clothoCreatorChecks
    clothoChecks := ((frame, h), h) :: s.clothoChecks }

/-- Store.GetTimeTable of an event. Modelled from the spec: the store
(not under src/) returns KeyNotFound on a first-time lookup (spec
section 7). -/
def getTimeTable (s : PosetState) (x : EventHash) :
    Option (List (EventHash × Int)) :=
  (s.timeTables.find? (fun p => p.1 = x)).map (·.2)

/-- Inner update for AddTimeTable: set the vote for clotho y to t. -/
def timeTableSet : List (EventHash × Int) → EventHash → Int →
    List (EventHash × Int)
  | [], y, t => [(y, t)]
  | kv :: rest, y, t =>
    if kv.1 = y then (y, t) :: rest else kv :: timeTableSet rest y t

/-- Store.AddTimeTable(x, y, t): record x's vote t for clotho y. -/
def addTimeTable (s : PosetState) (x y : EventHash) (t : Int) : PosetState :=
  match s.timeTables.find? (fun p => p.1 = x) with
  | none => { s with timeTables := s.timeTables ++ [(x, [(y, t)])] }
  | some (_, tt) =>
      { s with timeTables :=
          (s.timeTables.map
            (fun p => if p.1 = x then (x, timeTableSet tt y t) else p)) }

/-- Store.GetBlock by index. -/
def getBlock (s : PosetState) (i : Int) : Option Block :=
  s.blocks.find? (fun b => b.index = i)

/-- Store.SetBlock: replace by index or append. -/
def setBlockList : List Block → Block → List Block
  | [], b => [b]
  | x :: xs, b => if x.index = b.index then b :: xs else x :: setBlockList xs b

/-- State-level Store.SetBlock. -/
def setBlock (s : PosetState) (b : Block) : PosetState :=
  { s with blocks := setBlockList s.blocks b }

/-- Poset.setLastConsensusRound (part_010 lines 2424-2436). -/
def setLastConsensusRound (s : PosetState) (i : Int) : PosetState :=
  { s with
    lastConsensusRound := some i
    firstConsensusRound :=
      (match s.firstConsensusRound with
       | none => some i
       | some j => some j) }

/-- Poset.setAnchorBlock (part_010 lines 2438-2443). -/
def setAnchorBlock (s : PosetState) (i : Int) : PosetState :=
  { s with anchorBlock := some i }

/-- Poset.GetLastConsensusRound (part_010 lines 2494-2503): -2 when the
pointer is nil, the stored value otherwise. -/
def GetLastConsensusRound (s : PosetState) : Int :=
  match s.lastConsensusRound with
  | none => -2
  | some i => i

/-- The "Clear all state" prefix of Poset.Reset (part_010 lines
1820-1834): consensus-round pointers, anchor block, pending queues and
the topological counter are cleared. -/
def resetClear (s : PosetState) : PosetState :=
  { s with
    lastConsensusRound := none
    firstConsensusRound := none
    anchorBlock := none
    undeterminedEvents := []
    pendingLoadedEvents := 0
    topologicalIndex := 0 }

/-- Consensus-related fields of a freshly constructed Poset (NewPoset,
part_010 lines 97-141): all pointers nil, queues empty, counters zero. -/
def initialPosetState (participants : List Nat) (roots : List (Nat × Root))
    (lastEvents : List (Nat × EventHash)) : PosetState where
  participants := participants
  events := []
  lastEvents := lastEvents
  roots := roots
  clothoCreatorChecks := []
  clothoChecks := []
  timeTables := []
  roundsCreated := []
  blocks := []
  undeterminedEvents := []
  pendingLoadedEvents := 0
  sigPool := []
  topologicalIndex := 0
  lastConsensusRound := none
  firstConsensusRound := none
  anchorBlock := none
  consensusTransactions := 0
  consensusEvents := []

/-- Signature verification step of InsertEvent (part_010 lines 856-871);
the cryptographic check is abstracted into the event's `sigOk` field. -/
def verifyEvent (e : Event) : Except String Unit :=
  if e.sigOk then .ok () else .error "invalid Event signature"

/-- Poset.checkSelfParent (part_010 lines 629-653): the self-parent must
be the creator's last known event. -/
def checkSelfParent (s : PosetState) (e : Event) : Except String Unit :=
  match lastEventFrom s e.creator with
  | none => .error "LastEventFrom: key not found"
  | some creatorLastKnown =>
      if e.selfParent = creatorLastKnown then .ok ()
      else .error "self-parent not last known event by creator"

/-- Poset.checkOtherParent (part_010 lines 656-677): a non-zero
other-parent must be in the store or referenced in the creator's
Root.Others under this event's hash. -/
def checkOtherParent (s : PosetState) (e : Event) : Except String Unit :=
  if e.otherParent = 0 then .ok ()
  else
    match getEvent s e.otherParent with
    | some _ => .ok ()
    | none =>
        match getRoot s e.creator with
        | none => .error "GetRoot: key not found"
        | some root =>
            match root.others.find? (fun p => p.1 = e.hash) with
            | some po =>
                if po.2.hash = e.otherParent then .ok ()
                else .error "other-parent not known"
            | none => .error "other-parent not known"

/-- Frame assignment section of InsertEvent (part_010 lines 898-967).
Given the (possibly zero) self-parent and other-parent events, returns
(Root, Frame, flagTable, rootTable) before the event's own hash is added
(line 971). -/
def frameAssign (s : PosetState) (spE opE : Event) :
    Except String (Bool × Int × FlagTable × FlagTable) :=
  if spE.frame = opE.frame then
    let flagTable := mergeFlagTable spE.flagTable opE.flagTable
    if GetSuperMajority s.participants.length ≤ ftSize flagTable then
      .ok (true, spE.frame + 1, [], flagTable)
    else
      .ok (false, spE.frame, flagTable, [])
  else if spE.frame > opE.frame then
    .ok (false, spE.frame, spE.flagTable, [])
  else
    match getClothoCreatorCheck s opE.frame opE.creatorID with
    | none => .error "GetClothoCheck(otherParentEvent.Frame, otherHead): key not found"
    | some otherRoot =>
        let otherRootEvent := getEventD s otherRoot
        let rootTable := mergeFlagTable spE.flagTable otherRootEvent.rootTable
        .ok (true, opE.frame, opE.flagTable, rootTable)

/-- Validation and field-assignment phase of InsertEvent (part_010 lines
855-991): signature check, parent checks, frame/flag-table/root-table
assignment (with the event's own hash added to the flag table of a root,
line 971) and the eager lamport computation (lines 976-991). No state is
mutated in this phase. -/
def insertEventPrepare (s : PosetState) (e : Event) : Except String Event :=
  match verifyEvent e with
  | .error m => .error m
  | .ok () =>
  match checkSelfParent s e with
  | .error m => .error ("CheckSelfParent: " ++ m)
  | .ok () =>
  match checkOtherParent s e with
  | .error m => .error ("CheckOtherParent: " ++ m)
  | .ok () =>
  match frameAssign s (getEventD s e.selfParent) (getEventD s e.otherParent) with
  | .error m => .error m
  | .ok (root, frame, flagTable0, rootTable) =>
      .ok { e with
              isRoot := root
              frame := frame
              flagTable := if root then ftInsert flagTable0 e.hash frame
                           else flagTable0
              rootTable := rootTable
              lamport :=
                if e.lamport = LamportTimestampNIL then
                  (if (getEventD s e.otherParent).lamport >
                       (getEventD s e.selfParent).lamport then
                     (getEventD s e.otherParent).lamport
                   else (getEventD s e.selfParent).lamport) + 1
                else e.lamport }

/-- Poset.accountEvent (part_010 lines 2402-2416): record the last
consensus round, decrement the pending-loaded counter for loaded events,
add the event to the consensus index and count its transactions. -/
def accountEvent (s : PosetState) (ev : Event) : PosetState :=
  let s1 := setLastConsensusRound s ev.frame
  let s2 :=
    if ev.loaded then
      { s1 with pendingLoadedEvents := s1.pendingLoadedEvents - 1 }
    else s1
  { s2 with
    consensusEvents := s2.consensusEvents ++ [ev.hash]
    consensusTransactions := s2.consensusTransactions + ev.transactionCount }

/-- Helper incCcTemp of ClothoChecking (part_010 lines 2061-2070):
increment the counter at (frame, hash). -/
def incCcTemp (cc : List ((Int × EventHash) × Nat)) (frame : Int)
    (h : EventHash) : List ((Int × EventHash) × Nat) :=
  match cc.find? (fun p => p.1 = (frame, h)) with
  | some _ => cc.map (fun p => if p.1 = (frame, h) then (p.1, p.2 + 1) else p)
  | none => cc ++ [((frame, h), 1)]

/-- Helper updateCcList of ClothoChecking (part_010 lines 2072-2083):
keep the maximum counter at (frame, hash). -/
def updateCcList (cc : List ((Int × EventHash) × Nat)) (frame : Int)
    (h : EventHash) (v : Nat) : List ((Int × EventHash) × Nat) :=
  match cc.find? (fun p => p.1 = (frame, h)) with
  | some pv =>
      if pv.2 < v then
        cc.map (fun p => if p.1 = (frame, h) then (p.1, v) else p)
      else cc
  | none => cc ++ [((frame, h), v)]

/-- Innermost walk of ClothoChecking (part_010 lines 2116-2144): for each
entry of a prev-root's root-table, follow the clotho-check index two more
levels and accumulate counts into ccTemp. -/
def clothoCheckTemp (s : PosetState) :
    List (EventHash × Int) → List ((Int × EventHash) × Nat) →
    Except String (List ((Int × EventHash) × Nat))
  | [], ccTemp => .ok ccTemp
  | (rkey, rval) :: rest, ccTemp =>
    match getClothoCheck s rval rkey with
    | none => clothoCheckTemp s rest ccTemp
    | some pp =>
        match getEvent s pp with
        | none => .error "GetEventBlock(prevPrevRoot): key not found"
        | some ppEvent =>
            let ccTemp1 := ppEvent.rootTable.foldl
              (fun acc kv =>
                if (getClothoCheck s kv.2 kv.1).isSome then
                  incCcTemp acc kv.2 kv.1
                else acc)
              ccTemp
            clothoCheckTemp s rest ccTemp1

/-- Accumulation phase of ClothoChecking (part_010 lines 2092-2150): for
each root-table entry of the new root, walk prev-roots and merge the
per-entry ccTemp counters into ccList via updateCcList. -/
def clothoCheckAccum (s : PosetState) :
    List (EventHash × Int) → List ((Int × EventHash) × Nat) →
    Except String (List ((Int × EventHash) × Nat))
  | [], ccList => .ok ccList
  | (key, val) :: rest, ccList =>
    match getClothoCheck s val key with
    | none => clothoCheckAccum s rest ccList
    | some prevRoot =>
        match getEvent s prevRoot with
        | none => .error "GetEventBlock(prevRoot): key not found"
        | some prevRootEvent =>
            match clothoCheckTemp s prevRootEvent.rootTable [] with
            | .error m => .error m
            | .ok ccTemp =>
                clothoCheckAccum s rest
                  (ccTemp.foldl
                    (fun acc p => updateCcList acc p.1.1 p.1.2 p.2) ccList)

/-- Promotion phase of ClothoChecking (part_010 lines 2151-2187): every
(frame, hash) whose count reaches supermajority has its root marked as
clotho, and the new root's time-table vote for it is recorded. -/
def clothoPromote (e : Event) :
    PosetState → List ((Int × EventHash) × Nat) →
    PosetState × Except String Unit
  | s, [] => (s, .ok ())
  | s, ((frame, key), v) :: rest =>
    if GetSuperMajority s.participants.length ≤ v then
      match getClothoCheck s frame key with
      | none => (s, .error "GetClothoCheck(frame, key): key not found")
      | some rootKey =>
          match getEvent s rootKey with
          | none => (s, .error "GetEventBlock(key): key not found")
          | some root =>
              let s1 :=
                if root.isClotho then s
                else setEventStore s { root with isClotho := true }
              clothoPromote e (addTimeTable s1 e.hash root.hash e.lamport) rest
    else clothoPromote e s rest

/-- Poset.ClothoChecking (part_010 lines 2085-2189). On error the state
holds whatever mutations were already applied. -/
def clothoChecking (s : PosetState) (e : Event) :
    PosetState × Except String Unit :=
  match clothoCheckAccum s e.rootTable [] with
  | .error m => (s, .error m)
  | .ok ccList => clothoPromote e s ccList

/-- CountMap.Inc inside AtroposTimeSelection (part_010 lines 2199-2207):
increment the tally of lamport value t among the votes for clotho key. -/
def countMapInc (cm : List (EventHash × List (Int × Nat))) (key : EventHash)
    (t : Int) : List (EventHash × List (Int × Nat)) :=
  match cm.find? (fun p => p.1 = key) with
  | none => cm ++ [(key, [(t, 1)])]
  | some pv =>
      let votes1 :=
        match pv.2.find? (fun v => v.1 = t) with
        | none => pv.2 ++ [(t, 1)]
        | some _ => pv.2.map (fun v => if v.1 = t then (v.1, v.2 + 1) else v)
      cm.map (fun p => if p.1 = key then (key, votes1) else p)

/-- Vote aggregation of AtroposTimeSelection (part_010 lines 2195-2207):
collect the time-table of every root-table entry; a missing time-table is
a store error that is propagated (lines 2200-2203). -/
def buildCountMap (s : PosetState) :
    List (EventHash × Int) → List (EventHash × List (Int × Nat)) →
    Except String (List (EventHash × List (Int × Nat)))
  | [], cm => .ok cm
  | (prevKey, _) :: rest, cm =>
    match getTimeTable s prevKey with
    | none => .error "GetTimeTable: key not found"
    | some tt =>
        buildCountMap s rest
          (tt.foldl (fun acc kv => countMapInc acc kv.1 kv.2) cm)

/-- Non-coin-round vote winner (part_010 lines 2240-2247): most frequent
lamport value, ties broken by the lower lamport; returns (count, value). -/
def pluralityVote (votes : List (Int × Nat)) : Nat × Int :=
  votes.foldl
    (fun mv tc =>
      if mv.1 = 0 || tc.2 > mv.1 then (tc.2, tc.1)
      else if tc.2 = mv.1 && tc.1 < mv.2 then (mv.1, tc.1)
      else mv)
    (0, 0)

/-- Coin-round vote (part_010 lines 2230-2237): minimum lamport value
seen, with the count taken from the first vote; returns (count, value). -/
def coinVote (votes : List (Int × Nat)) : Nat × Int :=
  votes.foldl
    (fun mv tc =>
      if mv.1 = 0 then (tc.2, tc.1)
      else if tc.1 < mv.2 then (mv.1, tc.1)
      else mv)
    (0, 0)

/-- Poset.AssignAtroposTime2 (part_010 lines 2293-2340): walk the parents,
assigning frame-received and atropos timestamps to ancestors that lack
them, and return the lamport of the other-parent when it is in the store,
or the event's own lamport otherwise. The Go recursion is bounded here by
fuel; exhausted fuel returns the leaf answer. -/
def assignAtroposTime2 : Nat → PosetState → Event → Int → PosetState × Int
  | 0, s, e, _ => (s, e.lamport)
  | fuel + 1, s, e, frame =>
    let sAfterSelf :=
      match getEvent s e.selfParent with
      | none => s
      | some sp0 =>
          let followSelf0 := sp0.frameReceived = 0
          let sp1 :=
            if sp0.frameReceived = 0 then { sp0 with frameReceived := frame }
            else sp0
          if sp1.atroposTimestamp = 0 then
            let st := assignAtroposTime2 fuel s sp1 frame
            let sp2 := { sp1 with atroposTimestamp := st.2 }
            setEventStore (accountEvent st.1 sp2) sp2
          else if followSelf0 then setEventStore s sp1
          else s
    match getEvent sAfterSelf e.otherParent with
    | none => (sAfterSelf, e.lamport)
    | some op0 =>
        let followOther0 := op0.frameReceived = 0
        let op1 :=
          if op0.frameReceived = 0 then { op0 with frameReceived := frame }
          else op0
        let sFin :=
          if op1.atroposTimestamp = 0 then
            let st := assignAtroposTime2 fuel sAfterSelf op1 frame
            let op2 := { op1 with atroposTimestamp := st.2 }
            setEventStore (accountEvent st.1 op2) op2
          else if followOther0 then setEventStore sAfterSelf op1
          else sAfterSelf
        (sFin, op0.lamport)

/-- Promotion of a clotho to atropos inside AtroposTimeSelection
(part_010 lines 2254-2269): mark atropos, set frame-received to the
clotho's own frame, account it when its timestamp was unset, then assign
the atropos timestamp computed by AssignAtroposTime2 and store it. -/
def promoteClotho (fuel : Nat) (s : PosetState) (clotho : Event) :
    PosetState :=
  let clotho1 := { clotho with isAtropos := true, frameReceived := clotho.frame }
  let s1 := if clotho.atroposTimestamp = 0 then accountEvent s clotho1 else s
  let st := assignAtroposTime2 fuel s1 clotho1 clotho.frame
  let clotho2 := { clotho1 with atroposTimestamp := st.2 }
  setEventStore st.1 clotho2

/-- Per-clotho loop of AtroposTimeSelection (part_010 lines 2208-2287):
skip unknown or already-atropos clothos; coin rounds (frame gap divisible
by 4) record the minimum vote; otherwise the plurality winner either
promotes the clotho (on supermajority) or is recorded as this root's
vote. -/
def atroposSelectLoop (fuel : Nat) (e : Event) :
    PosetState → List (EventHash × List (Int × Nat)) →
    Except String PosetState
  | s, [] => .ok s
  | s, (key, votes) :: rest =>
    match getEvent s key with
    | none => atroposSelectLoop fuel e s rest
    | some clotho =>
        if clotho.isAtropos then atroposSelectLoop fuel e s rest
        else if (e.frame - clotho.frame) % 4 = 0 then
          let mv := coinVote votes
          atroposSelectLoop fuel e (addTimeTable s e.hash key mv.2) rest
        else
          let mv := pluralityVote votes
          if GetSuperMajority s.participants.length ≤ mv.1 then
            atroposSelectLoop fuel e (promoteClotho fuel s clotho) rest
          else
            atroposSelectLoop fuel e (addTimeTable s e.hash key mv.2) rest

/-- Poset.AtroposTimeSelection (part_010 lines 2191-2290). -/
def atroposTimeSelection (fuel : Nat) (s : PosetState) (e : Event) :
    Except String PosetState :=
  match buildCountMap s e.rootTable [] with
  | .error m => .error m
  | .ok cm => atroposSelectLoop fuel e s cm

/-- Queue updates at the end of InsertEvent (part_010 lines 1040-1056):
append to UndeterminedEvents, bump the pending-loaded counter for loaded
events, and append the event's block signatures to the signature pool. -/
def finishInsert (s : PosetState) (e : Event) :
    Except String Unit × PosetState :=
  (.ok (),
   { s with
     undeterminedEvents := s.undeterminedEvents ++ [e.hash]
     pendingLoadedEvents :=
       s.pendingLoadedEvents + (if e.loaded then 1 else 0)
     sigPool := s.sigPool ++ e.blockSignatures })

/-- Poset.InsertEvent (part_010 lines 855-1057): validation and field
assignment (insertEventPrepare), topological index, optional wire-info
check (setWireInfo, lines 800-828), SetEvent, SetRoundCreated, and for
roots the clotho-check registration, ClothoChecking and
AtroposTimeSelection, then the queue updates. Each error return carries
the state exactly as the Go code leaves it. -/
def insertEvent (s : PosetState) (e : Event) (wire : Bool) (fuel : Nat) :
    Except String Unit × PosetState :=
  match insertEventPrepare s e with
  | .error m => (.error m, s)
  | .ok e1 =>
      let e2 := { e1 with topologicalIndex := s.topologicalIndex }
      let s1 := { s with topologicalIndex := s.topologicalIndex + 1 }
      let wireCheck : Except String Unit :=
        if wire then
          if s1.participants.contains e2.creator = false then
            .error "SetWireInfo: creator not found"
          else
            match getEvent s1 e2.selfParent with
            | none => .error "SetWireInfo: self parent not found"
            | some _ =>
                match getEvent s1 e2.otherParent with
                | none => .error "SetWireInfo: other parent not found"
                | some op =>
                    if s1.participants.contains op.creator then .ok ()
                    else .error "SetWireInfo: other parent creator not found"
        else .ok ()
      match wireCheck with
      | .error m => (.error m, s1)
      | .ok () =>
          let s2 := setEventStore s1 e2
          let s3 :=
            { s2 with roundsCreated :=
                if s2.roundsCreated.contains e2.frame then s2.roundsCreated
                else s2.roundsCreated ++ [e2.frame] }
          if e2.isRoot then
            let s4 := addClothoCheck s3 e2.frame e2.creatorID e2.hash
            let cc := clothoChecking s4 e2
            match cc.2 with
            | .error m => (.error ("CheckClotho(newHead): " ++ m), cc.1)
            | .ok () =>
                match atroposTimeSelection fuel cc.1 e2 with
                | .error m =>
                    (.error ("AtroposTimeSelection(newHead): " ++ m), cc.1)
                | .ok s5 => finishInsert s5 e2
          else finishInsert s3 e2

/-- Poset.lamportTimestamp2 (part_010 lines 541-597): recursive lamport
computation; roots answer with their descriptor's lamport, a dangling
other-parent contributes through Root.Others or not at all (the Go
MinInt64 sentinel never exceeds a real parent lamport). Bounded by
fuel. -/
def lamportTimestamp2 : Nat → PosetState → EventHash → Except String Int
  | 0, _, _ => .error "fuel exhausted"
  | fuel + 1, s, x =>
    match s.roots.find? (fun pr => pr.2.selfParent.hash = x) with
    | some pr => .ok pr.2.selfParent.lamportTimestamp
    | none =>
        match getEvent s x with
        | none => .error "GetEventBlock: key not found"
        | some ex =>
            match getRoot s ex.creator with
            | none => .error "GetRoot: key not found"
            | some root =>
                let pltE : Except String Int :=
                  if ex.selfParent = root.selfParent.hash then
                    .ok root.selfParent.lamportTimestamp
                  else lamportTimestamp2 fuel s ex.selfParent
                match pltE with
                | .error m => .error m
                | .ok plt =>
                    if ex.otherParent = 0 then .ok (plt + 1)
                    else
                      match getEvent s ex.otherParent with
                      | some _ =>
                          match lamportTimestamp2 fuel s ex.otherParent with
                          | .error m => .error m
                          | .ok opLT =>
                              .ok ((if opLT > plt then opLT else plt) + 1)
                      | none =>
                          match root.others.find? (fun po => po.1 = x) with
                          | some po =>
                              if po.2.hash = ex.otherParent then
                                .ok ((if po.2.lamportTimestamp > plt then
                                        po.2.lamportTimestamp
                                      else plt) + 1)
                              else .ok (plt + 1)
                          | none => .ok (plt + 1)

/-- Block.SetSignature (called at part_010 line 1767): attach a verified
signature under its validator key; a repeated validator overwrites and
does not change the count of distinct validators. -/
def setSignature (b : Block) (bs : BlockSignature) : Block :=
  if b.signatures.contains bs.validator then b
  else { b with signatures := b.signatures ++ [bs.validator] }

/-- The test "p.AnchorBlock == nil || i > *p.AnchorBlock" used twice in
ProcessSigPool (part_010 lines 1738-1739 and 1779-1780). -/
def anchorLt (anchor : Option Int) (i : Int) : Bool :=
  match anchor with
  | none => true
  | some a => a < i

/-- Main loop of Poset.ProcessSigPool (part_010 lines 1727-1791) over the
enumerated signature pool. Returns the loop outcome, the mutated state and
the list of processed markers (Go marks the slice position, line 1790);
iterations skipped by continue are not marked, and a verification error
aborts with the markers collected so far. -/
def processSigPoolLoop :
    PosetState → List (Int × BlockSignature) →
    Except String Unit × PosetState × List Int
  | s, [] => (.ok (), s, [])
  | s, (i, bs) :: rest =>
    if s.participants.contains bs.validator = false then
      processSigPoolLoop s rest
    else if anchorLt s.anchorBlock bs.index then
      match getBlock s bs.index with
      | none => processSigPoolLoop s rest
      | some block =>
          if bs.verifyErr then
            (.error "block signature verification failure", s, [])
          else if bs.valid = false then processSigPoolLoop s rest
          else
            let block1 := setSignature block bs
            let s1 := setBlock s block1
            let s2 :=
              if (GetTrustCount s.participants.length <
                    block1.signatures.length) ∧
                  (anchorLt s.anchorBlock block1.index = true) then
                setAnchorBlock s1 block1.index
              else s1
            let r := processSigPoolLoop s2 rest
            (r.1, r.2.1, i :: r.2.2)
    else
      let r := processSigPoolLoop s rest
      (r.1, r.2.1, i :: r.2.2)

/-- Poset.removeProcessedSignatures (part_010 lines 838-847): keep only
pool entries whose block index is not among the processed markers (the Go
code compares bs.Index against the recorded slice positions). -/
def removeProcessedSignatures (pool : List BlockSignature)
    (processed : List Int) : List BlockSignature :=
  pool.filter (fun bs => processed.contains bs.index = false)

/-- Poset.ProcessSigPool (part_010 lines 1723-1794) including the
deferred removeProcessedSignatures. -/
def processSigPool (s : PosetState) : Except String Unit × PosetState :=
  let r := processSigPoolLoop s
    (s.sigPool.enum.map (fun p => ((p.1 : Int), p.2)))
  (r.1,
   { r.2.1 with
     sigPool := removeProcessedSignatures r.2.1.sigPool r.2.2 })

/-- Modelled from the spec: the signature tie-break key of the ordering
comparator (poset/sorting.go is not under src/): "bytewise XOR of the
event signature bytes viewed as a big-endian integer". -/
def sigXor (sig : List Nat) : Nat := sig.foldl Nat.xor 0

/-- Modelled from the spec: the Less method of the ByLamportTimestamp
comparator applied by sort.Stable in MakeFrame (part_010 line 1561;
poset/sorting.go is not under src/): compare atropos-timestamp, then
lamport-timestamp, then flag-table-hash, then signature XOR, each
ascending. -/
def consensusLess (a b : Event) : Bool :=
  if a.atroposTimestamp = b.atroposTimestamp then
    if a.lamport = b.lamport then
      if a.flagTableHash = b.flagTableHash then
        decide (sigXor a.signature < sigXor b.signature)
      else decide (a.flagTableHash < b.flagTableHash)
    else decide (a.lamport < b.lamport)
  else decide (a.atroposTimestamp < b.atroposTimestamp)

/-- The non-strict order induced by the comparator, as used by a stable
sort: a may stay before b exactly when b is not strictly less than a. -/
def consensusLE (a b : Event) : Prop := consensusLess b a = false

instance : DecidableRel consensusLE := fun a b =>
  inferInstanceAs (Decidable (consensusLess b a = false))

/-- The four-component lexicographic key order stated by the spec:
atropos-timestamp, then lamport, then flag-table-hash, then signature
XOR, each ascending. -/
def consensusKeyLE (a b : Event) : Prop :=
  a.atroposTimestamp < b.atroposTimestamp ∨
  (a.atroposTimestamp = b.atroposTimestamp ∧
   (a.lamport < b.lamport ∨
    (a.lamport = b.lamport ∧
     (a.flagTableHash < b.flagTableHash ∨
      (a.flagTableHash = b.flagTableHash ∧
       sigXor a.signature ≤ sigXor b.signature)))))

theorem consensusLE_iff_keyLE (a b : Event) :
    consensusLE a b ↔ consensusKeyLE a b := by
  unfold consensusLE consensusLess consensusKeyLE
  split_ifs <;> simp only [decide_eq_false_iff_not, not_lt] <;> omega

instance : IsTotal Event consensusLE where
  total a b := by
    unfold consensusLE consensusLess
    split_ifs <;> simp only [decide_eq_false_iff_not, not_lt] <;> omega

instance : IsTrans Event consensusLE where
  trans a b c hab hbc := by
    unfold consensusLE consensusLess at hab hbc ⊢
    split_ifs at hab hbc ⊢ <;>
      simp only [decide_eq_false_iff_not, not_lt] at hab hbc ⊢ <;> omega

/-- The stable sort performed by MakeFrame on a decided round's events
(part_010 line 1561): sort.Stable with the ByLamportTimestamp comparator,
embedded as stable insertion sort over `consensusLE`. -/
def byLamportTimestampSort (l : List Event) : List Event :=
  List.insertionSort consensusLE l

/-- C4: On the block-emission path, MakeFrame's collected events are
sorted by the four-component key (atropos-timestamp, lamport-timestamp,
flag-table-hash, signature-XOR), each component ascending: the sorted
list is ordered under `consensusKeyLE` and is a permutation of the
input. -/
theorem makeFrame_events_sorted_by_consensus_key (l : List Event) :
    List.Sorted consensusKeyLE (byLamportTimestampSort l) ∧
    (byLamportTimestampSort l).Perm l :=
  ⟨(List.sorted_insertionSort consensusLE l).imp
      (fun h => (consensusLE_iff_keyLE _ _).1 h),
   List.perm_insertionSort consensusLE l⟩

/-- C9 counterexample: at n = 2 the value required by the spec's expected
table (GetSuperMajority 2 = 2) matches neither closed-form formula the
spec states: section 4.3's 2*floor(n/3)+1 gives 1 and section 2's
ceil(2n/3)+1 gives 3, so the claim that the table is consistent with
those formulas is false. -/
theorem supermajority_formulas_disagree_at_two :
    GetSuperMajority 2 = 2 ∧
    superMajoritySpecFloor 2 = 1 ∧
    superMajoritySpecCeil 2 = 3 ∧
    GetSuperMajority 2 ≠ superMajoritySpecFloor 2 ∧
    GetSuperMajority 2 ≠ superMajoritySpecCeil 2 := by decide

/-- C9: for n = 1..10, GetSuperMajority returns {1,2,3,3,4,5,5,6,7,7} and
GetTrustCount returns {0,0,1,1,1,2,2,2,3,3}, i.e. the floor(2n/3)+1 and
floor(n/3) values of the spec's expected table. -/
theorem supermajority_trustcount_table :
    ((List.range 10).map (fun i => GetSuperMajority (i + 1)) =
      [1, 2, 3, 3, 4, 5, 5, 6, 7, 7]) ∧
    ((List.range 10).map (fun i => GetTrustCount (i + 1)) =
      [0, 0, 1, 1, 1, 2, 2, 2, 3, 3]) := by decide

/-- C10: GetLastConsensusRound returns the sentinel -2 on a freshly
constructed Poset and after the clearing phase of Reset, and returns the
last value passed to setLastConsensusRound otherwise. -/
theorem getLastConsensusRound_sentinel_and_set
    (s : PosetState) (i : Int) (parts : List Nat)
    (roots : List (Nat × Root)) (lasts : List (Nat × EventHash)) :
    GetLastConsensusRound (initialPosetState parts roots lasts) = -2 ∧
    GetLastConsensusRound (resetClear s) = -2 ∧
    GetLastConsensusRound (setLastConsensusRound s i) = i :=
  ⟨rfl, rfl, rfl⟩

theorem insertEventPrepare_ok_elim {s : PosetState} {e e1 : Event}
    (hok : insertEventPrepare s e = .ok e1) :
    ∃ root frame ft0 rt,
      frameAssign s (getEventD s e.selfParent) (getEventD s e.otherParent) =
        .ok (root, frame, ft0, rt) ∧
      e1 = { e with
               isRoot := root
               frame := frame
               flagTable := if root then ftInsert ft0 e.hash frame else ft0
               rootTable := rt
               lamport :=
                 if e.lamport = LamportTimestampNIL then
                   (if (getEventD s e.otherParent).lamport >
                        (getEventD s e.selfParent).lamport then
                      (getEventD s e.otherParent).lamport
                    else (getEventD s e.selfParent).lamport) + 1
                 else e.lamport } := by
  unfold insertEventPrepare at hok
  split at hok
  · exact absurd hok (by simp)
  split at hok
  · exact absurd hok (by simp)
  split at hok
  · exact absurd hok (by simp)
  split at hok
  · exact absurd hok (by simp)
  rename_i root frame ft0 rt heq
  refine ⟨root, frame, ft0, rt, heq, ?_⟩
  cases hok
  rfl

/-- C1: for an event inserted by InsertEvent whose self-parent and
other-parent are known and have equal frames, rootness is decided by the
merged flag table: with at least supermajority entries the event is a
root at frame sp.frame + 1 whose root-table is the merged table and whose
flag table is reset to the singleton containing its own hash at its
frame; otherwise it is not a root, keeps frame sp.frame, and its flag
table is the merged table. -/
theorem insertEvent_equal_frames_root_rule
    (s : PosetState) (e spE opE e1 : Event)
    (hsp : getEvent s e.selfParent = some spE)
    (hop : getEvent s e.otherParent = some opE)
    (hfr : spE.frame = opE.frame)
    (hok : insertEventPrepare s e = .ok e1) :
    (GetSuperMajority s.participants.length ≤
        ftSize (mergeFlagTable spE.flagTable opE.flagTable) →
      e1.isRoot = true ∧ e1.frame = spE.frame + 1 ∧
      e1.rootTable = mergeFlagTable spE.flagTable opE.flagTable ∧
      e1.flagTable = [(e.hash, spE.frame + 1)]) ∧
    (ftSize (mergeFlagTable spE.flagTable opE.flagTable) <
        GetSuperMajority s.participants.length →
      e1.isRoot = false ∧ e1.frame = spE.frame ∧
      e1.flagTable = mergeFlagTable spE.flagTable opE.flagTable) := by
  have hspD : getEventD s e.selfParent = spE := by simp [getEventD, hsp]
  have hopD : getEventD s e.otherParent = opE := by simp [getEventD, hop]
  obtain ⟨root, frame, ft0, rt, heq, he1⟩ := insertEventPrepare_ok_elim hok
  rw [hspD, hopD] at heq he1
  unfold frameAssign at heq
  rw [if_pos hfr] at heq
  constructor
  · intro hsm
    rw [if_pos hsm] at heq
    have hc : true = root ∧ spE.frame + 1 = frame ∧ ([] : FlagTable) = ft0 ∧
        mergeFlagTable spE.flagTable opE.flagTable = rt := by
      simpa using heq
    obtain ⟨h1, h2, h3, h4⟩ := hc
    subst h1 h2 h3 h4
    subst he1
    simp [ftInsert]
  · intro hsm
    rw [if_neg (by omega)] at heq
    have hc : false = root ∧ spE.frame = frame ∧
        mergeFlagTable spE.flagTable opE.flagTable = ft0 ∧
        ([] : FlagTable) = rt := by
      simpa using heq
    obtain ⟨h1, h2, h3, h4⟩ := hc
    subst h1 h2 h3 h4
    subst he1
    simp

/-- C2 (amended): when the self-parent's frame is strictly below the
other-parent's frame, the inserted event is a root at the other-parent's
frame, its root-table merges the self-parent's flag table with the
root-table of the canonical root recorded at (op.frame, op.creator) --
not (op.frame - 1, op.creator) -- and its flag table is the
other-parent's flag table with the event's own hash added at the new
frame, not the inherited table alone. -/
theorem insertEvent_frame_jump_root_rule
    (s : PosetState) (e spE opE e1 : Event) (rh : EventHash)
    (hsp : getEvent s e.selfParent = some spE)
    (hop : getEvent s e.otherParent = some opE)
    (hfr : spE.frame < opE.frame)
    (hcc : getClothoCreatorCheck s opE.frame opE.creatorID = some rh)
    (hok : insertEventPrepare s e = .ok e1) :
    e1.isRoot = true ∧ e1.frame = opE.frame ∧
    e1.rootTable = mergeFlagTable spE.flagTable (getEventD s rh).rootTable ∧
    e1.flagTable = ftInsert opE.flagTable e.hash opE.frame := by
  have hspD : getEventD s e.selfParent = spE := by simp [getEventD, hsp]
  have hopD : getEventD s e.otherParent = opE := by simp [getEventD, hop]
  obtain ⟨root, frame, ft0, rt, heq, he1⟩ := insertEventPrepare_ok_elim hok
  rw [hspD, hopD] at heq he1
  unfold frameAssign at heq
  rw [if_neg (by omega), if_neg (by omega), hcc] at heq
  have hc : true = root ∧ opE.frame = frame ∧ opE.flagTable = ft0 ∧
      mergeFlagTable spE.flagTable (getEventD s rh).rootTable = rt := by
    simpa using heq
  obtain ⟨h1, h2, h3, h4⟩ := hc
  subst h1 h2 h3 h4
  subst he1
  simp

/-- Self-parent of the C2 scenario: frame 0. -/
def c2SelfParent : Event :=
  { zeroEvent with
      hash := 10, creator := 1, creatorID := 1, frame := 0, lamport := 1,
      flagTable := [(10, 0)] }

/-- Other-parent of the C2 scenario: a root at frame 2. -/
def c2OtherParent : Event :=
  { zeroEvent with
      hash := 20, creator := 2, creatorID := 2, frame := 2, lamport := 5,
      flagTable := [(20, 2)] }

/-- Canonical root recorded at (frame 2, creator 2). -/
def c2RootAtOpFrame : Event :=
  { zeroEvent with
      hash := 30, creator := 2, creatorID := 2, frame := 2,
      rootTable := [(30, 2)] }

/-- Canonical root recorded at (frame 1, creator 2): the root the spec
says the root-table should be built from. -/
def c2RootBelowOpFrame : Event :=
  { zeroEvent with
      hash := 40, creator := 2, creatorID := 2, frame := 1,
      rootTable := [(40, 1)] }

/-- Store for the C2 scenario, with distinct canonical roots recorded at
(2, creator 2) and (1, creator 2). -/
def c2State : PosetState :=
  { initialPosetState [1, 2] [] [(1, 10), (2, 20)] with
      events := [c2SelfParent, c2OtherParent, c2RootAtOpFrame,
                 c2RootBelowOpFrame]
      clothoCreatorChecks := [((2, 2), 30), ((1, 2), 40)] }

/-- The event inserted in the C2 scenario. -/
def c2NewEvent : Event :=
  { zeroEvent with
      hash := 50, creator := 1, creatorID := 1, index := 1,
      selfParent := 10, otherParent := 20, lamport := -1, sigOk := true }

/-- The event record InsertEvent actually assigns in the C2 scenario. -/
def c2Result : Event :=
  { c2NewEvent with
      isRoot := true, frame := 2, flagTable := [(20, 2), (50, 2)],
      rootTable := [(10, 0), (30, 2)], lamport := 6 }

/-- C2 counterexample: with sp.frame = 0 < 2 = op.frame, InsertEvent
assigns a flag table that differs from the other-parent's (the event's
own hash is added), and a root-table built from the canonical root at
(op.frame, op.creator) = (2, 2), not from the root at (op.frame - 1,
op.creator) = (1, 2) as the claim states. -/
theorem frame_jump_uses_op_frame_not_predecessor :
    getEvent c2State c2NewEvent.selfParent = some c2SelfParent ∧
    getEvent c2State c2NewEvent.otherParent = some c2OtherParent ∧
    c2SelfParent.frame < c2OtherParent.frame ∧
    insertEventPrepare c2State c2NewEvent = .ok c2Result ∧
    c2Result.flagTable ≠ c2OtherParent.flagTable ∧
    getClothoCreatorCheck c2State (c2OtherParent.frame - 1)
      c2OtherParent.creatorID = some c2RootBelowOpFrame.hash ∧
    c2Result.rootTable ≠
      mergeFlagTable c2SelfParent.flagTable c2RootBelowOpFrame.rootTable ∧
    getClothoCreatorCheck c2State c2OtherParent.frame
      c2OtherParent.creatorID = some c2RootAtOpFrame.hash ∧
    c2Result.rootTable =
      mergeFlagTable c2SelfParent.flagTable c2RootAtOpFrame.rootTable := by
  decide

/-- Witness for the amended C2 rule on the concrete scenario. -/
theorem insertEvent_frame_jump_root_rule_witness :
    getEvent c2State c2NewEvent.selfParent = some c2SelfParent ∧
    getEvent c2State c2NewEvent.otherParent = some c2OtherParent ∧
    c2SelfParent.frame < c2OtherParent.frame ∧
    getClothoCreatorCheck c2State c2OtherParent.frame
      c2OtherParent.creatorID = some 30 ∧
    (c2Result.isRoot = true ∧ c2Result.frame = c2OtherParent.frame ∧
     c2Result.rootTable =
       mergeFlagTable c2SelfParent.flagTable (getEventD c2State 30).rootTable ∧
     c2Result.flagTable =
       ftInsert c2OtherParent.flagTable c2NewEvent.hash c2OtherParent.frame) :=
  ⟨by decide, by decide, by decide, by decide,
   insertEvent_frame_jump_root_rule c2State c2NewEvent c2SelfParent
     c2OtherParent c2Result 30 (by decide) (by decide) (by decide)
     (by decide) (by decide)⟩

/-- Self-parent of the C1 scenario: a frame-0 event whose flag table
carries one root. -/
def c1SelfParent : Event :=
  { zeroEvent with
      hash := 10, creator := 1, creatorID := 1, frame := 0, lamport := 1,
      flagTable := [(7, 0)] }

/-- Other-parent of the C1 scenario: a frame-0 event whose flag table
carries a different root. -/
def c1OtherParent : Event :=
  { zeroEvent with
      hash := 11, creator := 2, creatorID := 2, frame := 0, lamport := 1,
      flagTable := [(8, 0)] }

/-- Store for the C1 scenario: two participants, so supermajority is 2
and the merged table of both parents reaches it. -/
def c1State : PosetState :=
  { initialPosetState [1, 2] [] [(1, 10), (2, 11)] with
      events := [c1SelfParent, c1OtherParent] }

/-- The event inserted in the C1 scenario. -/
def c1NewEvent : Event :=
  { zeroEvent with
      hash := 20, creator := 1, creatorID := 1, index := 1,
      selfParent := 10, otherParent := 11, lamport := -1, sigOk := true }

/-- The event record InsertEvent assigns in the C1 scenario. -/
def c1Result : Event :=
  { c1NewEvent with
      isRoot := true, frame := 1, flagTable := [(20, 1)],
      rootTable := [(7, 0), (8, 0)], lamport := 2 }

/-- Witness for C1 on the concrete two-participant scenario. -/
theorem insertEvent_equal_frames_root_rule_witness :
    getEvent c1State c1NewEvent.selfParent = some c1SelfParent ∧
    getEvent c1State c1NewEvent.otherParent = some c1OtherParent ∧
    c1SelfParent.frame = c1OtherParent.frame ∧
    insertEventPrepare c1State c1NewEvent = .ok c1Result ∧
    ((GetSuperMajority c1State.participants.length ≤
        ftSize (mergeFlagTable c1SelfParent.flagTable
                  c1OtherParent.flagTable) →
      c1Result.isRoot = true ∧ c1Result.frame = c1SelfParent.frame + 1 ∧
      c1Result.rootTable =
        mergeFlagTable c1SelfParent.flagTable c1OtherParent.flagTable ∧
      c1Result.flagTable = [(c1NewEvent.hash, c1SelfParent.frame + 1)]) ∧
     (ftSize (mergeFlagTable c1SelfParent.flagTable c1OtherParent.flagTable) <
        GetSuperMajority c1State.participants.length →
      c1Result.isRoot = false ∧ c1Result.frame = c1SelfParent.frame ∧
      c1Result.flagTable =
        mergeFlagTable c1SelfParent.flagTable c1OtherParent.flagTable)) :=
  ⟨by decide, by decide, by decide, by decide,
   insertEvent_equal_frames_root_rule c1State c1NewEvent c1SelfParent
     c1OtherParent c1Result (by decide) (by decide) (by decide) (by decide)⟩

/-- C7 (amended): for an event inserted with both parents present in the
event store and an unassigned lamport, the eager computation in
InsertEvent assigns lamport = 1 + max(parent lamports). (For a leaf whose
parents are not in the store the eager value is 1, while the recursive
lamportTimestamp2 yields 0; see the counterexample.) -/
theorem insertEvent_lamport_eager
    (s : PosetState) (e spE opE e1 : Event)
    (hsp : getEvent s e.selfParent = some spE)
    (hop : getEvent s e.otherParent = some opE)
    (hnil : e.lamport = LamportTimestampNIL)
    (hok : insertEventPrepare s e = .ok e1) :
    e1.lamport = 1 + max spE.lamport opE.lamport := by
  have hspD : getEventD s e.selfParent = spE := by simp [getEventD, hsp]
  have hopD : getEventD s e.otherParent = opE := by simp [getEventD, hop]
  obtain ⟨root, frame, ft0, rt, heq, he1⟩ := insertEventPrepare_ok_elim hok
  rw [hspD, hopD] at he1
  subst he1
  simp only [hnil, if_pos rfl]
  split_ifs <;> omega

/-- Per-creator Root backing the C7 leaf scenario: the self-parent
descriptor carries lamport -1 as the spec prescribes. -/
def c7Root : Root :=
  { nextRound := 0
    selfParent :=
      { hash := 100, creatorID := 1, index := -1,
        lamportTimestamp := -1, round := -1 }
    others := [] }

/-- Store for the C7 leaf scenario: no events yet; the creator's last
known "event" is the root pseudo-hash. -/
def c7State : PosetState := initialPosetState [1] [(1, c7Root)] [(1, 100)]

/-- The leaf event of the C7 scenario: both parents resolve to nothing in
the event store. -/
def c7Leaf : Event :=
  { zeroEvent with
      hash := 60, creator := 1, creatorID := 1, index := 0,
      selfParent := 100, otherParent := 0, lamport := -1, sigOk := true }

/-- C7 counterexample: the leaf is accepted and stored with the eager
lamport 1 (both missing parents contribute the zero event's lamport 0),
whereas the recursive lamportTimestamp2 computes 0 for it (the root
descriptor contributes -1); the eager and recursive computations
disagree, and the stored leaf lamport is not 0. -/
theorem leaf_lamport_eager_disagrees_with_recursive :
    (insertEvent c7State c7Leaf false 4).1 = .ok () ∧
    ((getEvent (insertEvent c7State c7Leaf false 4).2 c7Leaf.hash).map
        (fun ev => ev.lamport)) = some 1 ∧
    lamportTimestamp2 4 (insertEvent c7State c7Leaf false 4).2 c7Leaf.hash =
      .ok 0 := by decide

/-- Self-parent for the C7 witness scenario. -/
def c7KnownSelfParent : Event :=
  { zeroEvent with
      hash := 70, creator := 3, creatorID := 3, frame := 0, lamport := 4 }

/-- Other-parent for the C7 witness scenario. -/
def c7KnownOtherParent : Event :=
  { zeroEvent with
      hash := 71, creator := 4, creatorID := 4, frame := 0, lamport := 9 }

/-- Store for the C7 witness scenario with both parents present. -/
def c7KnownState : PosetState :=
  { initialPosetState [3, 4] [] [(3, 70), (4, 71)] with
      events := [c7KnownSelfParent, c7KnownOtherParent] }

/-- Event inserted in the C7 witness scenario. -/
def c7NewEvent : Event :=
  { zeroEvent with
      hash := 72, creator := 3, creatorID := 3, index := 1,
      selfParent := 70, otherParent := 71, lamport := -1, sigOk := true }

/-- The record InsertEvent assigns in the C7 witness scenario. -/
def c7Result : Event :=
  { c7NewEvent with isRoot := false, frame := 0, lamport := 10 }

/-- Witness for the amended C7 rule at a concrete input. -/
theorem insertEvent_lamport_eager_witness :
    getEvent c7KnownState c7NewEvent.selfParent = some c7KnownSelfParent ∧
    getEvent c7KnownState c7NewEvent.otherParent = some c7KnownOtherParent ∧
    c7NewEvent.lamport = LamportTimestampNIL ∧
    insertEventPrepare c7KnownState c7NewEvent = .ok c7Result ∧
    c7Result.lamport =
      1 + max c7KnownSelfParent.lamport c7KnownOtherParent.lamport :=
  ⟨by decide, by decide, by decide, by decide,
   insertEvent_lamport_eager c7KnownState c7NewEvent c7KnownSelfParent
     c7KnownOtherParent c7Result (by decide) (by decide) (by decide)
     (by decide)⟩

/-- C5 (amended): an event whose self-parent is not the creator's last
known event -- in particular the fork that reuses the accepted event's
self-parent and index -- is rejected by InsertEvent with the
self-parent-mismatch error and the state is returned unchanged. (A
same-creator same-index event that instead names the accepted event
itself as self-parent passes the check; see the counterexample.) -/
theorem insertEvent_rejects_self_parent_mismatch
    (s : PosetState) (e : Event) (wire : Bool) (fuel : Nat) (h : EventHash)
    (hsig : e.sigOk = true)
    (hlast : lastEventFrom s e.creator = some h)
    (hne : e.selfParent ≠ h) :
    insertEvent s e wire fuel =
      (.error ("CheckSelfParent: " ++
        "self-parent not last known event by creator"), s) := by
  have hprep : insertEventPrepare s e =
      .error ("CheckSelfParent: " ++
        "self-parent not last known event by creator") := by
    unfold insertEventPrepare verifyEvent checkSelfParent
    rw [hsig, hlast]
    simp [hne]
  unfold insertEvent
  rw [hprep]

/-- The event accepted first in the C5 fork scenario (creator 1,
index 5). -/
def c5Accepted : Event :=
  { zeroEvent with
      hash := 50, creator := 1, creatorID := 1, index := 5,
      selfParent := 40, otherParent := 0, frame := 0, lamport := 2,
      sigOk := true }

/-- Store after c5Accepted was inserted: it is the creator's last known
event. -/
def c5State : PosetState :=
  { initialPosetState [1] [] [(1, 50)] with events := [c5Accepted] }

/-- A forged event with the same creator and the same index 5 but
different content: it names the accepted event itself as self-parent. -/
def c5ForkOntoAccepted : Event :=
  { zeroEvent with
      hash := 51, creator := 1, creatorID := 1, index := 5,
      selfParent := 50, otherParent := 0, lamport := -1, sigOk := true }

/-- C5 counterexample: the distinct event with the same creator and the
same creator-local index 5 is accepted by InsertEvent (it passes
checkSelfParent because its self-parent is the last known event), so the
claim that every such event is rejected is false. -/
theorem same_index_fork_accepted_when_self_parent_is_head :
    c5ForkOntoAccepted.creator = c5Accepted.creator ∧
    c5ForkOntoAccepted.index = c5Accepted.index ∧
    c5ForkOntoAccepted.hash ≠ c5Accepted.hash ∧
    getEvent c5State c5Accepted.hash = some c5Accepted ∧
    (insertEvent c5State c5ForkOntoAccepted false 4).1 = .ok () ∧
    (getEvent (insertEvent c5State c5ForkOntoAccepted false 4).2
        c5ForkOntoAccepted.hash).isSome = true := by decide

/-- The honest fork of the C5 scenario: same creator, same index 5, and
the same self-parent as the accepted event. -/
def c5Fork : Event :=
  { zeroEvent with
      hash := 52, creator := 1, creatorID := 1, index := 5,
      selfParent := 40, otherParent := 0, lamport := -1, sigOk := true }

/-- Witness for the amended C5 rule: the fork with the accepted event's
own self-parent is rejected and the state is unchanged. -/
theorem insertEvent_rejects_self_parent_mismatch_witness :
    c5Fork.sigOk = true ∧
    lastEventFrom c5State c5Fork.creator = some 50 ∧
    c5Fork.selfParent ≠ 50 ∧
    insertEvent c5State c5Fork false 4 =
      (.error ("CheckSelfParent: " ++
        "self-parent not last known event by creator"), c5State) :=
  ⟨by decide, by decide, by decide,
   insertEvent_rejects_self_parent_mismatch c5State c5Fork false 4 50
     (by decide) (by decide) (by decide)⟩

/-- C6 (amended): an error raised by the validation and assignment phase
of InsertEvent (signature verification, checkSelfParent,
checkOtherParent, or the frame-assignment lookups) is returned with the
state exactly as it was before the call. (Errors raised after the event
has been persisted leave the event in the store; see the
counterexample.) -/
theorem insertEvent_validation_error_no_mutation
    (s : PosetState) (e : Event) (wire : Bool) (fuel : Nat) (m : String)
    (h : insertEventPrepare s e = .error m) :
    insertEvent s e wire fuel = (.error m, s) := by
  unfold insertEvent
  rw [h]

/-- Store for the C6 scenario: one participant whose head event carries a
flag-table entry for a root that has no time-table yet. -/
def c6Head : Event :=
  { zeroEvent with
      hash := 10, creator := 1, creatorID := 1, frame := 0, lamport := 1,
      flagTable := [(7, 0)], sigOk := true }

/-- State before the failing C6 insertion. -/
def c6State : PosetState :=
  { initialPosetState [1] [] [(1, 10)] with events := [c6Head] }

/-- The event whose insertion fails after mutating the store: it becomes
a root (supermajority for one participant is 1), and
AtroposTimeSelection then fails on the missing time-table of entry 7. -/
def c6NewEvent : Event :=
  { zeroEvent with
      hash := 20, creator := 1, creatorID := 1, index := 1,
      selfParent := 10, otherParent := 0, lamport := -1, sigOk := true }

/-- C6 counterexample: InsertEvent returns an error, yet the event store
has changed -- the new event was persisted (SetEvent runs before
ClothoChecking and AtroposTimeSelection, whose failures are returned
without rolling anything back). -/
theorem insertEvent_error_after_mutation :
    (insertEvent c6State c6NewEvent false 4).1 =
      .error ("AtroposTimeSelection(newHead): " ++
        "GetTimeTable: key not found") ∧
    getEvent c6State c6NewEvent.hash = none ∧
    (getEvent (insertEvent c6State c6NewEvent false 4).2
        c6NewEvent.hash).isSome = true ∧
    (insertEvent c6State c6NewEvent false 4).2 ≠ c6State := by decide

/-- An event that fails validation outright for the C6 witness. -/
def c6BadEvent : Event := { zeroEvent with hash := 99, sigOk := false }

/-- Witness for the amended C6 rule: a validation error leaves the state
untouched. -/
theorem insertEvent_validation_error_no_mutation_witness :
    insertEventPrepare c6State c6BadEvent = .error "invalid Event signature" ∧
    insertEvent c6State c6BadEvent false 4 =
      (.error "invalid Event signature", c6State) :=
  ⟨by decide,
   insertEvent_validation_error_no_mutation c6State c6BadEvent false 4
     "invalid Event signature" (by decide)⟩

theorem setEventList_find_self (l : List Event) (ev : Event) :
    (setEventList l ev).find? (fun x => x.hash = ev.hash) = some ev := by
  induction l with
  | nil => simp [setEventList, List.find?]
  | cons x xs ih =>
      by_cases h : x.hash = ev.hash
      · simp [setEventList, h, List.find?]
      · simp only [setEventList, if_neg h]
        rw [List.find?_cons_of_neg _ (by simp [h])]
        exact ih

theorem getEvent_setEventStore_self (s : PosetState) (ev : Event) :
    getEvent (setEventStore s ev) ev.hash = some ev := by
  unfold getEvent setEventStore
  exact setEventList_find_self s.events ev

theorem accountEvent_events (s : PosetState) (ev : Event) :
    (accountEvent s ev).events = s.events := by
  unfold accountEvent setLastConsensusRound
  split <;> (split <;> rfl)

theorem getEvent_accountEvent (s : PosetState) (ev : Event) (h : EventHash) :
    getEvent (accountEvent s ev) h = getEvent s h := by
  unfold getEvent
  rw [accountEvent_events]

/-- C3 (amended): when AtroposTimeSelection promotes a clotho (the
winning vote count reaches supermajority in a non-coin round,
promoteClotho), the record stored for the clotho is marked atropos with
frame-received equal to its frame -- so the promoted atropos a satisfies
frame-received(a) = frame(a) -- and its atropos-timestamp is the value
computed by AssignAtroposTime2, which for a clotho with no parents in the
store is the clotho's own lamport, not the winning vote value. -/
theorem promoteClotho_marks_atropos (fuel : Nat) (s : PosetState)
    (c : Event) :
    ∃ c2 : Event,
      getEvent (promoteClotho fuel s c) c.hash = some c2 ∧
      c2.isAtropos = true ∧
      c2.frameReceived = c.frame ∧
      c2.frame = c.frame ∧
      (getEvent s c.selfParent = none → getEvent s c.otherParent = none →
        c2.atroposTimestamp = c.lamport) := by
  refine ⟨{ c with
              isAtropos := true, frameReceived := c.frame,
              atroposTimestamp :=
                (assignAtroposTime2 fuel
                  (if c.atroposTimestamp = 0 then
                    accountEvent s
                      { c with isAtropos := true, frameReceived := c.frame }
                   else s)
                  { c with isAtropos := true, frameReceived := c.frame }
                  c.frame).2 },
          ?_, rfl, rfl, rfl, ?_⟩
  · exact getEvent_setEventStore_self _ _
  · intro hsp hop
    have hsp1 : getEvent
        (if c.atroposTimestamp = 0 then
          accountEvent s { c with isAtropos := true, frameReceived := c.frame }
         else s) c.selfParent = none := by
      split
      · rw [getEvent_accountEvent]; exact hsp
      · exact hsp
    have hop1 : getEvent
        (if c.atroposTimestamp = 0 then
          accountEvent s { c with isAtropos := true, frameReceived := c.frame }
         else s) c.otherParent = none := by
      split
      · rw [getEvent_accountEvent]; exact hop
      · exact hop
    cases fuel with
    | zero => rfl
    | succ n =>
        show (assignAtroposTime2 (n + 1) _ _ _).2 = c.lamport
        rw [assignAtroposTime2]
        simp only [hsp1, hop1]

/-- The clotho of the C3 scenario: frame 2, lamport 3, no parents in the
store, not yet atropos. -/
def c3Clotho : Event :=
  { zeroEvent with
      hash := 5, creator := 1, creatorID := 1, frame := 2, lamport := 3,
      selfParent := 9, otherParent := 0 }

/-- Store for the C3 scenario: one participant (supermajority 1); root 11
has voted lamport 7 for the clotho in its time-table. -/
def c3State : PosetState :=
  { initialPosetState [1] [] [(1, 5)] with
      events := [c3Clotho]
      timeTables := [(11, [(5, 7)])] }

/-- The new root whose insertion triggers AtroposTimeSelection in the C3
scenario: frame 3, so the frame gap to the clotho is 1 (not a coin
round). -/
def c3NewRoot : Event :=
  { zeroEvent with
      hash := 40, creator := 1, creatorID := 1, frame := 3, lamport := 9,
      isRoot := true, rootTable := [(11, 1)] }

/-- C3 counterexample: the winning time-table vote for the clotho is
lamport 7 with count 1 = supermajority, so the clotho is promoted; the
promotion sets frame-received = 2 = frame(clotho), but the stored
atropos-timestamp is 3 (the clotho's own lamport, computed by
AssignAtroposTime2), not the winning lamport 7. -/
theorem atropos_timestamp_is_not_winning_lamport :
    getTimeTable c3State 11 = some [(5, 7)] ∧
    pluralityVote [(7, 1)] = (1, 7) ∧
    GetSuperMajority c3State.participants.length ≤ 1 ∧
    (match atroposTimeSelection 4 c3State c3NewRoot with
     | .ok s1 =>
         (getEvent s1 5).map
           (fun ev => (ev.isAtropos, ev.frameReceived, ev.atroposTimestamp))
     | .error _ => none) = some (true, 2, 3) ∧
    (3 : Int) ≠ 7 := by decide

/-- Witness for the amended C3 rule: the promotion hypotheses hold at the
concrete clotho (no parents in the store) and the promoted record has
frame-received equal to its frame and timestamp equal to its own
lamport. -/
theorem promoteClotho_marks_atropos_witness :
    getEvent c3State c3Clotho.selfParent = none ∧
    getEvent c3State c3Clotho.otherParent = none ∧
    (∃ c2 : Event,
      getEvent (promoteClotho 4 c3State c3Clotho) c3Clotho.hash = some c2 ∧
      c2.isAtropos = true ∧
      c2.frameReceived = c3Clotho.frame ∧
      c2.frame = c3Clotho.frame ∧
      (getEvent c3State c3Clotho.selfParent = none →
        getEvent c3State c3Clotho.otherParent = none →
        c2.atroposTimestamp = c3Clotho.lamport)) :=
  ⟨by decide, by decide, promoteClotho_marks_atropos 4 c3State c3Clotho⟩

theorem setSignature_index (b : Block) (bs : BlockSignature) :
    (setSignature b bs).index = b.index := by
  unfold setSignature
  split <;> rfl

theorem setSignature_length_le (b : Block) (bs : BlockSignature) :
    b.signatures.length ≤ (setSignature b bs).signatures.length := by
  unfold setSignature
  split
  · exact le_rfl
  · simp

theorem setBlockList_find (l : List Block) (b : Block) (i : Int) :
    (setBlockList l b).find? (fun x => x.index = i) =
      if b.index = i then some b
      else l.find? (fun x => x.index = i) := by
  induction l with
  | nil =>
      simp only [setBlockList]
      by_cases h : b.index = i <;> simp [List.find?, h]
  | cons x xs ih =>
      simp only [setBlockList]
      by_cases hx : x.index = b.index
      · rw [if_pos hx]
        by_cases h : b.index = i
        · simp [List.find?, h]
        · have hxi : ¬ x.index = i := by rw [hx]; exact h
          simp [List.find?, h, hxi]
      · rw [if_neg hx]
        by_cases hxi : x.index = i
        · have h : ¬ b.index = i := by
            intro hbi; exact hx (by rw [hxi, hbi])
          simp [List.find?, hxi, h]
        · simp [List.find?, hxi, ih]

theorem getBlock_setBlock (s : PosetState) (b : Block) (i : Int) :
    getBlock (setBlock s b) i =
      if b.index = i then some b else getBlock s i := by
  unfold getBlock setBlock
  exact setBlockList_find s.blocks b i

/-- Number of signatures attached to the block stored at index i. -/
def blockCount (s : PosetState) (i : Int) : Nat :=
  match getBlock s i with
  | none => 0
  | some b => b.signatures.length

theorem processSigPoolLoop_participants :
    ∀ (l : List (Int × BlockSignature)) (s : PosetState),
      (processSigPoolLoop s l).2.1.participants = s.participants := by
  intro l
  induction l with
  | nil => intro s; rfl
  | cons p rest ih =>
      intro s
      obtain ⟨i, bs⟩ := p
      rw [processSigPoolLoop]
      by_cases h1 : s.participants.contains bs.validator = false
      · rw [if_pos h1]; exact ih s
      · rw [if_neg h1]
        by_cases h2 : anchorLt s.anchorBlock bs.index = true
        · rw [if_pos h2]
          cases hb : getBlock s bs.index with
          | none => exact ih s
          | some block =>
              dsimp only
              by_cases h3 : bs.verifyErr = true
              · simp [h3]
              · rw [if_neg h3]
                by_cases h4 : bs.valid = false
                · rw [if_pos h4]; exact ih s
                · rw [if_neg h4]
                  dsimp only
                  rw [ih]
                  split <;> rfl
        · rw [if_neg h2]
          simp only []
          exact ih s

theorem getBlock_some_index {s : PosetState} {i : Int} {block : Block}
    (h : getBlock s i = some block) : block.index = i := by
  unfold getBlock at h
  have hfind := List.find?_some h
  simpa using hfind

theorem blockCount_setAnchorBlock (s : PosetState) (j : Int) (i : Int) :
    blockCount (setAnchorBlock s j) i = blockCount s i := rfl

theorem blockCount_setBlock_le (s : PosetState) (block : Block)
    (bs : BlockSignature) (hb : getBlock s bs.index = some block) (i : Int) :
    blockCount s i ≤ blockCount (setBlock s (setSignature block bs)) i := by
  unfold blockCount
  rw [getBlock_setBlock]
  by_cases h : (setSignature block bs).index = i
  · rw [if_pos h]
    have hidx : block.index = bs.index := getBlock_some_index hb
    have hi : i = bs.index := by
      rw [← h, setSignature_index, hidx]
    rw [hi, hb]
    exact setSignature_length_le block bs
  · rw [if_neg h]

theorem anchorLt_mono (anchor : Option Int) (j k : Int)
    (h1 : anchorLt anchor j = true) (hjk : j ≤ k) :
    anchorLt anchor k = true := by
  cases anchor with
  | none => rfl
  | some a =>
      simp only [anchorLt, decide_eq_true_eq] at h1 ⊢
      omega

theorem processSigPoolLoop_blockCount_mono :
    ∀ (l : List (Int × BlockSignature)) (s : PosetState) (i : Int),
      blockCount s i ≤ blockCount (processSigPoolLoop s l).2.1 i := by
  intro l
  induction l with
  | nil => intro s i; exact le_rfl
  | cons p rest ih =>
      intro s i
      obtain ⟨j, bs⟩ := p
      rw [processSigPoolLoop]
      by_cases h1 : s.participants.contains bs.validator = false
      · rw [if_pos h1]; exact ih s i
      · rw [if_neg h1]
        by_cases h2 : anchorLt s.anchorBlock bs.index = true
        · rw [if_pos h2]
          rcases hb : getBlock s bs.index with _ | block
          · exact ih s i
          · dsimp only
            by_cases h3 : bs.verifyErr = true
            · simp [h3]
            · rw [if_neg h3]
              by_cases h4 : bs.valid = false
              · rw [if_pos h4]; exact ih s i
              · rw [if_neg h4]
                dsimp only
                by_cases hadv :
                    (GetTrustCount s.participants.length <
                      (setSignature block bs).signatures.length) ∧
                    (anchorLt s.anchorBlock (setSignature block bs).index
                      = true)
                · rw [if_pos hadv]
                  calc blockCount s i
                      ≤ blockCount (setBlock s (setSignature block bs)) i :=
                        blockCount_setBlock_le s block bs hb i
                    _ ≤ _ := by
                        rw [← blockCount_setAnchorBlock
                              (setBlock s (setSignature block bs))
                              (setSignature block bs).index i]
                        exact ih _ i
                · rw [if_neg hadv]
                  calc blockCount s i
                      ≤ blockCount (setBlock s (setSignature block bs)) i :=
                        blockCount_setBlock_le s block bs hb i
                    _ ≤ _ := ih _ i
        · rw [if_neg h2]
          exact ih s i

theorem processSigPoolLoop_anchor_sound :
    ∀ (l : List (Int × BlockSignature)) (s : PosetState) (a' : Int),
      (processSigPoolLoop s l).2.1.anchorBlock = some a' →
      s.anchorBlock = some a' ∨
        (GetTrustCount s.participants.length <
           blockCount (processSigPoolLoop s l).2.1 a' ∧
         anchorLt s.anchorBlock a' = true) := by
  intro l
  induction l with
  | nil => intro s a' h; exact Or.inl h
  | cons p rest ih =>
      intro s a' h
      obtain ⟨j, bs⟩ := p
      rw [processSigPoolLoop] at h ⊢
      by_cases h1 : s.participants.contains bs.validator = false
      · rw [if_pos h1] at h ⊢; exact ih s a' h
      · rw [if_neg h1] at h ⊢
        by_cases h2 : anchorLt s.anchorBlock bs.index = true
        · rw [if_pos h2] at h ⊢
          rcases hb : getBlock s bs.index with _ | block
          · rw [hb] at h; exact ih s a' h
          · rw [hb] at h
            dsimp only at h ⊢
            by_cases h3 : bs.verifyErr = true
            · rw [if_pos h3] at h ⊢; exact Or.inl h
            · rw [if_neg h3] at h ⊢
              by_cases h4 : bs.valid = false
              · rw [if_pos h4] at h ⊢; exact ih s a' h
              · rw [if_neg h4] at h ⊢
                dsimp only at h ⊢
                by_cases hadv :
                    (GetTrustCount s.participants.length <
                      (setSignature block bs).signatures.length) ∧
                    (anchorLt s.anchorBlock (setSignature block bs).index
                      = true)
                · rw [if_pos hadv] at h ⊢
                  rcases ih _ a' h with hl | ⟨hc, hlt⟩
                  · have ha' : (setSignature block bs).index = a' := by
                      simpa [setAnchorBlock] using hl
                    refine Or.inr ⟨?_, ?_⟩
                    · have hstep : GetTrustCount s.participants.length <
                          blockCount
                            (setAnchorBlock
                              (setBlock s (setSignature block bs))
                              (setSignature block bs).index) a' := by
                        rw [blockCount_setAnchorBlock]
                        unfold blockCount
                        rw [getBlock_setBlock, if_pos ha']
                        exact hadv.1
                      exact lt_of_lt_of_le hstep
                        (processSigPoolLoop_blockCount_mono rest _ a')
                    · rw [← ha']
                      exact hadv.2
                  · refine Or.inr ⟨?_, ?_⟩
                    · exact hc
                    · have hanch : anchorLt
                          ((setAnchorBlock
                            (setBlock s (setSignature block bs))
                            (setSignature block bs).index).anchorBlock) a'
                          = true := hlt
                      have hlt2 : (setSignature block bs).index < a' := by
                        simpa [setAnchorBlock, anchorLt] using hanch
                      exact anchorLt_mono s.anchorBlock
                        (setSignature block bs).index a' hadv.2 (le_of_lt hlt2)
                · rw [if_neg hadv] at h ⊢
                  rcases ih _ a' h with hl | ⟨hc, hlt⟩
                  · exact Or.inl hl
                  · exact Or.inr ⟨hc, hlt⟩
        · rw [if_neg h2] at h ⊢
          exact ih s a' h

/-- C8: whenever ProcessSigPool leaves the anchor at some index a, either
the anchor already was a before the call, or the block stored at a has
accumulated strictly more than trust-count signatures and a exceeds the
anchor the call started from. In particular a block holding at most
trust-count valid signatures never advances the anchor, and the anchor
never moves backwards. -/
theorem processSigPool_anchor_rule (s : PosetState) (a' : Int)
    (h : (processSigPool s).2.anchorBlock = some a') :
    s.anchorBlock = some a' ∨
      (GetTrustCount s.participants.length <
         blockCount (processSigPool s).2 a' ∧
       anchorLt s.anchorBlock a' = true) := by
  unfold processSigPool at h ⊢
  exact processSigPoolLoop_anchor_sound
    (s.sigPool.enum.map (fun p => ((p.1 : Int), p.2))) s a' h

/-- State for the C8 witness: the spec's scenario with seven
participants (trust-count 2), block 42 receiving three valid signatures
and block 43 only two. -/
def c8State : PosetState :=
  { initialPosetState [1, 2, 3, 4, 5, 6, 7] [] [] with
      blocks := [{ index := 42, roundReceived := 5, signatures := [] },
                 { index := 43, roundReceived := 5, signatures := [] }]
      sigPool := [{ index := 42, validator := 1, valid := true, verifyErr := false },
                  { index := 42, validator := 2, valid := true, verifyErr := false },
                  { index := 42, validator := 3, valid := true, verifyErr := false },
                  { index := 43, validator := 1, valid := true, verifyErr := false },
                  { index := 43, validator := 2, valid := true, verifyErr := false }] }

/-- Witness for C8: the anchor advances to 42 (three signatures, above
trust-count 2) and block 43 with two signatures does not advance it. -/
theorem processSigPool_anchor_rule_witness :
    (processSigPool c8State).2.anchorBlock = some 42 ∧
    blockCount (processSigPool c8State).2 43 = 2 ∧
    GetTrustCount c8State.participants.length = 2 ∧
    (c8State.anchorBlock = some 42 ∨
      (GetTrustCount c8State.participants.length <
         blockCount (processSigPool c8State).2 42 ∧
       anchorLt c8State.anchorBlock 42 = true)) :=
  ⟨by decide, by decide, by decide,
   processSigPool_anchor_rule c8State 42 (by decide)⟩

end Dag1
